import Mathlib

/-!
Verification development for the Data-Uploader repository.

The definitions below are a shallow embedding of the column-reconciliation,
type-coercion and batched-upload engine of `upload_refresh.py` (and the
column validator of `validate_and_clean_data.py`).  Python strings are
modelled as lists of characters; `pandas`/`difflib` library behaviour that
the source relies on is modelled at the value level and documented at each
definition.  Machine floats never decide any property proved here: every
floating comparison performed by the source that matters to a claim is a
comparison of ratios of small integers, which IEEE doubles decide exactly
as the rationals do (noted where used).
-/

namespace DataUploader

/-- Python strings, modelled as lists of characters. -/
abbrev Str := List Char

/-- Literal helper: the character list of a Lean string literal. -/
def chars (s : String) : Str := s.toList

/-- Python `str.lower()` (ASCII-faithful; all names in this repository are ASCII). -/
def pyLower (s : Str) : Str := s.map Char.toLower

/-- Python `str.strip()`: remove leading and trailing whitespace. -/
def pyStrip (s : Str) : Str :=
  ((s.dropWhile Char.isWhitespace).reverse.dropWhile Char.isWhitespace).reverse

/-- Boolean prefix test on character lists (helper for substring containment). -/
def isPrefixB : Str → Str → Bool
  | [], _ => true
  | _ :: _, [] => false
  | x :: xs, y :: ys => x == y && isPrefixB xs ys

/-- Python `needle in hay` on strings: substring containment. -/
def containsSub (hay needle : Str) : Bool :=
  match hay with
  | [] => needle.isEmpty
  | _ :: t => isPrefixB needle hay || containsSub t needle

/-! ### difflib.SequenceMatcher (no junk: all compared names are far below
the 200-character autojunk threshold).

`find_longest_match` is the dynamic program of CPython's difflib: scan the
first string left to right keeping, for every position of the second
string, the length of the common run ending there; record the first block
that strictly improves on the best size.  The two junk-extension loops of
CPython are no-ops when there is no junk (any extendable block would have
been found later in the scan with a strictly larger size), so they are
omitted. -/

/-- One row of the run-length table: `row[j]` is the length of the common run
ending at the current character of `a` and position `j` of `b`.  `prev` is
passed shifted by one (a leading `0`), mirroring `j2len.get(j-1, 0) + 1`. -/
def lmRow (c : Char) : Str → List Nat → List Nat
  | [], _ => []
  | bj :: bs, pj :: ps => (if bj == c then pj + 1 else 0) :: lmRow c bs ps
  | bj :: bs, [] => (if bj == c then 1 else 0) :: lmRow c bs []

/-- Scan a row (ascending `j`), updating the best block `(besti, bestj, bestsize)`
exactly when the run length strictly exceeds the best size — first block wins
ties, as in CPython.  The accumulator is kept as three separate numbers and
each comparison is forced via `Nat.blt` so that evaluation stays shallow. -/
def lmScan (i : Nat) : Nat → List Nat → Nat → Nat → Nat → Nat × Nat × Nat
  | _, [], bi, bj, bk => (bi, bj, bk)
  | j, k :: rest, bi, bj, bk =>
      match Nat.blt bk k with
      | true => lmScan i (j + 1) rest (i + 1 - k) (j + 1 - k) k
      | false => lmScan i (j + 1) rest bi bj bk

/-- Main loop of `find_longest_match` over the characters of `a`. -/
def lmAux (b : Str) : Str → Nat → List Nat → Nat → Nat → Nat → Nat × Nat × Nat
  | [], _, _, bi, bj, bk => (bi, bj, bk)
  | c :: rest, i, prev, bi, bj, bk =>
      let row := lmRow c b (0 :: prev)
      match lmScan i 0 row bi bj bk with
      | (bi2, bj2, bk2) => lmAux b rest (i + 1) row bi2 bj2 bk2

/-- `find_longest_match` on whole strings: the longest common contiguous block,
ties broken by earliest end in `a`, then earliest position in `b`. -/
def longestMatch (a b : Str) : Nat × Nat × Nat :=
  lmAux b a 0 (List.replicate b.length 0) 0 0 0

/-- Total size of the matching blocks (`get_matching_blocks` recursion),
with structural fuel: each recursive call strictly shrinks the combined
length (the block size is at least 1), so fuel `a.length + b.length` is
always sufficient. -/
def matchingSizeAux : Nat → Str → Str → Nat
  | 0, _, _ => 0
  | fuel + 1, a, b =>
      match longestMatch a b with
      | (i, j, k) =>
          if k = 0 then 0
          else
            matchingSizeAux fuel (a.take i) (b.take j) + k +
              matchingSizeAux fuel (a.drop (i + k)) (b.drop (j + k))

/-- Sum of all matching-block sizes of `SequenceMatcher(None, a, b)`. -/
def matchingSize (a b : Str) : Nat := matchingSizeAux (a.length + b.length) a b

/-- `SequenceMatcher.ratio()` as the exact fraction `2*M / T` in unreduced
numerator/denominator form (difflib returns `1.0` for two empty strings).
The source compares these ratios as IEEE doubles; all ratios involved are
fractions with denominator far below `10^3`, for which double rounding
decides every comparison against another such fraction or against the
literal `0.85` exactly as the rational comparison does, so the model
compares the exact fractions by cross-multiplication. -/
def ratioPair (a b : Str) : Nat × Nat :=
  if a.length + b.length = 0 then (1, 1)
  else (2 * matchingSize a b, a.length + b.length)

/-- The ratio as a rational number, for readable statements. -/
def similarityScore (a b : Str) : ℚ :=
  ((ratioPair a b).1 : ℚ) / ((ratioPair a b).2 : ℚ)

/-! ### fuzzy matching (`upload_refresh.fuzzy_match`, lines 971-982, and
`validate_and_clean_data.fuzzy_match_column`, lines 112-126).

Both start `best_ratio` at the threshold and update only on a strictly
greater ratio (`if ratio > best_ratio`), so the threshold is exclusive and
the earliest column achieving the maximum ratio wins. -/

/-- Loop of `fuzzy_match`: the best ratio (a fraction `bn/bd`, starting at
the threshold `17/20 = 0.85`) is replaced exactly when a candidate's ratio
strictly exceeds it (cross-multiplied comparison of the exact fractions). -/
def fuzzyBest (expected : Str) : List Str → Nat → Nat → Option Str → Option Str
  | [], _, _, best => best
  | avail :: rest, bn, bd, best =>
      let rn := (ratioPair (pyLower expected) (pyLower avail)).1
      let rd := (ratioPair (pyLower expected) (pyLower avail)).2
      if bn * rd < rn * bd then fuzzyBest expected rest rn rd (some avail)
      else fuzzyBest expected rest bn bd best

/-- `fuzzy_match(expected, available, threshold=0.85)` of `upload_refresh.py`. -/
def fuzzy_match (expected : Str) (available : List Str) : Option Str :=
  fuzzyBest expected available 17 20 none

/-- Loop of `fuzzy_match_column` of `validate_and_clean_data.py`: the same
update rule, returning the pair `(best_match, best_ratio)`. -/
def fuzzyBestPair (colName : Str) : List Str → Nat → Nat → Option Str →
    Option Str × (Nat × Nat)
  | [], bn, bd, best => (best, bn, bd)
  | expected :: rest, bn, bd, best =>
      let rn := (ratioPair (pyLower colName) (pyLower expected)).1
      let rd := (ratioPair (pyLower colName) (pyLower expected)).2
      if bn * rd < rn * bd then fuzzyBestPair colName rest rn rd (some expected)
      else fuzzyBestPair colName rest bn bd best

/-- `fuzzy_match_column` with the default threshold `0.85`. -/
def fuzzy_match_column (colName : Str) (expectedCols : List Str) :
    Option Str × (Nat × Nat) :=
  fuzzyBestPair colName expectedCols 17 20 none

/-! ### Column reconciliation — the alignment phase of
`prepare_dataframe_for_table` (`upload_refresh.py`, lines 957-1021).

A dataframe column is modelled by its original position (`id`, `none` for
the null-filled columns that the function adds for missing destination
columns) plus its current name; `pandas.rename` renames every column whose
current label matches, and is silently a no-op when none does.  The
`claims` field is a ghost observation recording, for each destination
column that found a match, the original positions of the source columns it
captured at that step; it changes no behaviour and exists to state the
claim about double-claiming. -/

/-- A source-frame column: original position (none for added null columns)
and current name. -/
structure SrcCol where
  id : Option Nat
  name : Str
deriving DecidableEq, Repr

/-- Equality of `Except` values is decidable componentwise. -/
instance {ε α : Type} [DecidableEq ε] [DecidableEq α] : DecidableEq (Except ε α)
  | .error a, .error b =>
      if h : a = b then isTrue (by rw [h]) else isFalse (by intro c; cases c; exact h rfl)
  | .error _, .ok _ => isFalse (by intro c; cases c)
  | .ok _, .error _ => isFalse (by intro c; cases c)
  | .ok a, .ok b =>
      if h : a = b then isTrue (by rw [h]) else isFalse (by intro c; cases c; exact h rfl)

/-- Outcome of the alignment phase: the reordered columns (`Except` models
the `KeyError` that `prepared[expected_cols]` raises when a selected label
is absent), the ghost claim trace, and the diagnostics the source computes
(missing columns, extra columns, fuzzy auto-mapping notes — these are the
only diagnostics the source ever produces; the function returns just the
frame and `upload_df_to_table` returns `None`). -/
structure AlignResult where
  result : Except Str (List SrcCol)
  claims : List (Str × List Nat)
  missing : List Str
  extra : List Str
  notes : List Str
deriving DecidableEq, Repr

/-- Intermediate state of the per-destination-column loop. -/
structure AlignState where
  cols : List SrcCol
  claims : List (Str × List Nat)
  missing : List Str
  notes : List Str

/-- `pandas.DataFrame.rename(columns={src: dst})`: every column currently
labelled `src` is relabelled `dst`; a no-op if no column is. -/
def renameCols (cols : List SrcCol) (src dst : Str) : List SrcCol :=
  cols.map fun c => if c.name = src then { c with name := dst } else c

/-- Original positions of the columns currently labelled `n` (ghost). -/
def idsNamed (cols : List SrcCol) (n : Str) : List Nat :=
  cols.filterMap fun c => if c.name = n then c.id else none

/-- `col_map = {c.lower().strip(): c for c in orig_cols}`: a dict
comprehension, so the LAST original column with a given normalized key wins. -/
def colMapLookup (origCols : List Str) (key : Str) : Option Str :=
  (origCols.filter fun c => pyStrip (pyLower c) = key).getLast?

/-- One iteration of the `for exp in expected_cols` loop (lines 989-1005):
exact case-insensitive match against the ORIGINAL columns first (the
rename targets the original label, which may no longer exist), else a
fuzzy match against the CURRENT columns (which include columns already
renamed to earlier destination names), else record the column as missing
and add a null-filled column of that name. -/
def alignStep (origCols : List Str) (st : AlignState) (exp : Str) : AlignState :=
  let key := pyLower exp
  match colMapLookup origCols key with
  | some actual =>
      if actual = exp then
        { st with claims := st.claims ++ [(exp, idsNamed st.cols exp)] }
      else
        { st with
            cols := renameCols st.cols actual exp,
            claims := st.claims ++ [(exp, idsNamed st.cols actual)] }
  | none =>
      match fuzzy_match exp (st.cols.map (·.name)) with
      | some f =>
          { st with
              cols := renameCols st.cols f exp,
              claims := st.claims ++ [(exp, idsNamed st.cols f)],
              notes := st.notes ++ [f] }
      | none =>
          { st with
            missing := st.missing ++ [exp],
            cols :=
              if st.cols.any (fun c => c.name = exp) then st.cols
              else st.cols ++ [⟨none, exp⟩] }

/-- The alignment phase of `prepare_dataframe_for_table`: strip the column
labels, run the matching loop, drop the columns whose lowercase name is not
among the expected names (lines 1007-1015), then reorder with
`prepared[expected_cols]` — pandas raises `KeyError` if a requested label
is absent, and selects EVERY column bearing a requested label (so duplicate
labels yield more columns than requested). -/
def prepare_align (srcNames : List Str) (expected : List Str) : AlignResult :=
  let st0 : AlignState :=
    ⟨srcNames.enum.map (fun p => ⟨some p.1, pyStrip p.2⟩), [], [], []⟩
  let stF := expected.foldl (alignStep srcNames) st0
  let expLowers := expected.map pyLower
  let extra := (stF.cols.map (·.name)).filter fun n => ¬ expLowers.contains (pyLower n)
  let kept := stF.cols.filter fun c => expLowers.contains (pyLower c.name)
  let result : Except Str (List SrcCol) :=
    match expected.find? (fun e => kept.all fun c => c.name ≠ e) with
    | some e => Except.error e
    | none => Except.ok (expected.flatMap fun e => kept.filter fun c => c.name = e)
  ⟨result, stF.claims, stF.missing, extra, stF.notes⟩

/-! ### Raw calendar timestamps and the pandas datetime layer
(`upload_df_to_table`, lines 462-508).

`pd.to_datetime(..., errors='coerce')` parses to nanosecond-resolution
`Timestamp`s: unparseable values and values outside the int64-nanosecond
range become `NaT`.  A timestamp is modelled by its nanoseconds since
1970-01-01 (comparisons of `Timestamp`s are comparisons of these
integers); a raw calendar value is a (proleptic Gregorian) year, month,
day, hour, minute, second tuple, the resolution at which the source's
bound constants are written. -/

/-- A raw calendar datetime value as read from a spreadsheet cell. -/
structure DTRaw where
  year : Nat
  month : Nat
  day : Nat
  hour : Nat
  minute : Nat
  second : Nat
deriving DecidableEq, Repr

/-- Gregorian leap year. -/
def isLeap (y : Nat) : Bool := (y % 4 = 0 && y % 100 != 0) || y % 400 = 0

/-- Days in a Gregorian month. -/
def daysInMonth (y m : Nat) : Nat :=
  if m = 2 then (if isLeap y then 29 else 28)
  else if m = 4 ∨ m = 6 ∨ m = 9 ∨ m = 11 then 30 else 31

/-- A raw value is a well-formed calendar datetime (what the pandas parser
accepts as a date, before its range check). -/
def validCivil (r : DTRaw) : Prop :=
  1 ≤ r.year ∧ 1 ≤ r.month ∧ r.month ≤ 12 ∧ 1 ≤ r.day ∧
    r.day ≤ daysInMonth r.year r.month ∧ r.hour ≤ 23 ∧ r.minute ≤ 59 ∧ r.second ≤ 59

instance (r : DTRaw) : Decidable (validCivil r) := by
  unfold validCivil; infer_instance

/-- March-based year of a civil date (the year, shifted down by one for
January and February). -/
def civilYAdj (y m : Nat) : Nat := if m ≤ 2 then y - 1 else y

/-- 400-year era of a civil date. -/
def civilEra (y m : Nat) : Nat := civilYAdj y m / 400

/-- Year within the era. -/
def civilYoe (y m : Nat) : Nat := civilYAdj y m - civilEra y m * 400

/-- Day of the March-based year. -/
def civilDoy (m d : Nat) : Nat := (153 * ((m + 9) % 12) + 2) / 5 + (d - 1)

/-- Day within the era. -/
def civilDoe (y m d : Nat) : Nat :=
  civilYoe y m * 365 + civilYoe y m / 4 - civilYoe y m / 100 + civilDoy m d

/-- Days from 1970-01-01 to the given civil date (standard era-based
conversion for the proleptic Gregorian calendar used by pandas). -/
def civilDays (y m d : Nat) : Int :=
  ((civilEra y m * 146097 + civilDoe y m d : Nat) : Int) - 719468

/-- Nanoseconds since the 1970 epoch of a raw calendar datetime. -/
def toNs (r : DTRaw) : Int :=
  (civilDays r.year r.month r.day * 86400 +
    ((r.hour * 3600 + r.minute * 60 + r.second : Nat) : Int)) * 1000000000

/-- `pandas.Timestamp.min.value`: the smallest representable nanosecond
count (int64 minimum plus one; the minimum itself encodes `NaT`). -/
def pandasTsMin : Int := -(2 ^ 63) + 1

/-- `pandas.Timestamp.max.value`: int64 maximum. -/
def pandasTsMax : Int := 2 ^ 63 - 1

/-- `pd.to_datetime(value, errors='coerce')` on one raw cell: a well-formed
calendar value inside the representable nanosecond range parses to its
timestamp, everything else becomes `NaT` (`none`). -/
def to_datetime_one (r : DTRaw) : Option Int :=
  if validCivil r ∧ pandasTsMin ≤ toNs r ∧ toNs r ≤ pandasTsMax then some (toNs r) else none

/-- `min_datetime = pd.Timestamp('1753-01-01')` (line 465). -/
def min_datetime : Int := toNs ⟨1753, 1, 1, 0, 0, 0⟩

/-- `max_datetime = pd.Timestamp('9999-12-31 23:59:59')` (line 466; pandas 2
constructs it at second resolution, comparisons are on the instant). -/
def max_datetime : Int := toNs ⟨9999, 12, 31, 23, 59, 59⟩

/-- The DATETIME-column preprocessing of `upload_df_to_table` (lines
496-508): parse with `errors='coerce'`, then null out values strictly below
`min_datetime` or strictly above `max_datetime`. -/
def coerce_datetime_cell (r : DTRaw) : Option Int :=
  match to_datetime_one r with
  | none => none
  | some ts => if ts < min_datetime ∨ max_datetime < ts then none else some ts

/-! ### Cell values and the per-column coercion loop of
`prepare_dataframe_for_table` (lines 1023-1070). -/

/-- A raw spreadsheet cell value: absent/NaN, integer, float (modelled as an
exact rational — no comparison made by the source distinguishes the two for
any property proved here), boolean, string, or a date-like value. -/
inductive Val where
  | null : Val
  | vInt : Int → Val
  | vNum : ℚ → Val
  | vBool : Bool → Val
  | vStr : Str → Val
  | vDT : DTRaw → Val
deriving DecidableEq, Repr

/-- Digit value of a character, if it is a decimal digit. -/
def digitVal (c : Char) : Option Nat :=
  if c.isDigit then some (c.toNat - 48) else none

/-- Parse a nonempty all-digit string. -/
def digitsVal (ds : Str) : Option Nat :=
  if ds.isEmpty then none
  else
    ds.foldl
      (fun acc c =>
        match acc, digitVal c with
        | some a, some v => some (a * 10 + v)
        | _, _ => none)
      (some 0)

/-- Python numeric-string parsing as used by `pd.to_numeric` on plain
decimal forms: optional sign, integer part, optional fractional part
(exotic forms — exponents, infinities — are not exercised by any claim).
The value `±(a.b)` is built as the exact rational
`sign * (a * 10^len(b) + b) / 10^len(b)` (`mkRat` keeps every construction
kernel-computable). -/
def pyParseNumber (s0 : Str) : Option ℚ :=
  let s1 := pyStrip s0
  let signed : Int × Str :=
    match s1 with
    | '-' :: rest => (-1, rest)
    | '+' :: rest => (1, rest)
    | _ => (1, s1)
  let s2 := signed.2
  let ip := s2.takeWhile fun c => c ≠ '.'
  match s2.dropWhile fun c => c ≠ '.' with
  | [] => (digitsVal ip).map fun n => mkRat (signed.1 * n) 1
  | _ :: fp =>
      if ip.isEmpty ∧ fp.isEmpty then none
      else
        match (if ip.isEmpty then some 0 else digitsVal ip),
              (if fp.isEmpty then some 0 else digitsVal fp) with
        | some a, some b =>
            some (mkRat (signed.1 * ((a * 10 ^ fp.length + b : Nat) : Int)) (10 ^ fp.length))
        | _, _ => none

/-- `pd.to_numeric(value, errors='coerce')` on one cell: numbers pass
through, booleans count as 1/0, unparseable strings and nulls become NaN
(`none`); date-like cells are not numeric. -/
def to_numeric_cell (v : Val) : Option ℚ :=
  match v with
  | .null => none
  | .vInt n => some (mkRat n 1)
  | .vNum q => some q
  | .vBool b => some (if b then mkRat 1 1 else mkRat 0 1)
  | .vStr s => pyParseNumber s
  | .vDT _ => none

/-- `.astype('Int64')` on one cell of the `to_numeric` output: NaN becomes
`pd.NA`; a float is safe-cast, i.e. pandas RAISES
`TypeError: cannot safely cast non-equivalent float64 to int64` whenever
the float is not an exact integer. -/
def astype_Int64_cell (x : Option ℚ) : Except Str (Option Int) :=
  match x with
  | none => .ok none
  | some q =>
      if q.den = 1 then .ok (some q.num)
      else .error (chars ("cannot safely cast non-equivalent float64 to int64"))

/-- Decimal digits of a natural number (`Nat.toDigits`). -/
def intRepr (n : Int) : Str :=
  if n < 0 then '-' :: Nat.toDigits 10 n.natAbs else Nat.toDigits 10 n.natAbs

/-- Python `str(value)` for the cell shapes that reach the string branch.
Strings, integers and booleans are rendered exactly; the renderings of
floats and timestamps are abbreviated (no claim depends on them, only on
their length being what it is for strings). -/
def pyStr (v : Val) : Str :=
  match v with
  | .vStr s => s
  | .vInt n => intRepr n
  | .vBool b => if b then chars ("True") else chars ("False")
  | .vNum q => intRepr q.num ++ (if q.den = 1 then [] else '/' :: intRepr q.den)
  | .vDT r => intRepr r.year ++ '-' :: intRepr r.month ++ '-' :: intRepr r.day
  | .null => chars ("None")

/-- The string literal sets of `convert_to_bit` (lines 1051-1054), kept
verbatim — including the empty string in the false set, which is
unreachable because blank strings are nulled at line 1036 first. -/
def bitTrueLits : List Str :=
  [chars ("1"), chars ("true"), chars ("yes"), chars ("y"), chars ("t"), chars ("on")]

/-- The false-literal set of `convert_to_bit`, verbatim from the source. -/
def bitFalseLits : List Str :=
  [chars ("0"), chars ("false"), chars ("no"), chars ("n"), chars ("f"),
   chars ("off"), chars ("")]

/-- `convert_to_bit` (lines 1032-1056): NaN → NA; blank string → NA; bool
kept; numeric 1/0 → True/False, other numerics → NA; otherwise
`str(v).strip().lower()` against the literal sets, NA when in neither.
(A date-like cell stringifies to a form in neither set.) -/
def convert_to_bit (v : Val) : Val :=
  match v with
  | .null => .null
  | .vBool b => .vBool b
  | .vInt n => if n = 1 then .vBool true else if n = 0 then .vBool false else .null
  | .vNum q => if q = 1 then .vBool true else if q = 0 then .vBool false else .null
  | .vStr s =>
      if pyStrip s = [] then .null
      else
        let w := pyLower (pyStrip s)
        if w ∈ bitTrueLits then .vBool true
        else if w ∈ bitFalseLits then .vBool false
        else .null
  | .vDT _ => .null

/-- `sql_type_to_coercion` (lines 941-954), verbatim branch order. -/
def sql_type_to_coercion (dataType : Str) : Str :=
  let t := pyLower dataType
  if t = chars ("int") ∨ t = chars ("smallint") ∨ t = chars ("bigint") ∨
      t = chars ("tinyint") then chars ("int")
  else if t = chars ("decimal") ∨ t = chars ("numeric") ∨ t = chars ("money") ∨
      t = chars ("smallmoney") ∨ t = chars ("float") ∨ t = chars ("real") then
    chars ("float")
  else if t = chars ("bit") then chars ("bool")
  else if containsSub t (chars ("char")) ∨ containsSub t (chars ("text")) ∨
      containsSub t (chars ("xml")) ∨ containsSub t (chars ("uniqueidentifier")) then
    chars ("str")
  else if containsSub t (chars ("date")) ∨ containsSub t (chars ("time")) ∨
      containsSub t (chars ("datetime")) ∨ containsSub t (chars ("smalldatetime")) then
    chars ("datetime")
  else chars ("str")

/-- The per-cell semantics of the coercion loop of
`prepare_dataframe_for_table` (lines 1023-1070), one destination column of
SQL type `sqlType` and width `charMax` applied to one cell.  `Except`
carries the exception pandas raises on the whole column when a cell
triggers it (a column raises iff some cell does). The string branch is
`astype('string')` followed, when a positive width is configured, by
`str(x)[:char_max_length] if pd.notna(x) else None`. -/
def coerce_cell (sqlType : Str) (charMax : Option Int) (v : Val) : Except Str Val :=
  let c := sql_type_to_coercion sqlType
  if c = chars ("int") then
    match astype_Int64_cell (to_numeric_cell v) with
    | .error e => .error e
    | .ok none => .ok .null
    | .ok (some n) => .ok (.vInt n)
  else if c = chars ("float") then
    .ok (match to_numeric_cell v with | none => .null | some q => .vNum q)
  else if c = chars ("bool") then
    .ok (convert_to_bit v)
  else if c = chars ("datetime") then
    .ok (match v with
         | .vDT r => match to_datetime_one r with | some _ => .vDT r | none => .null
         | _ => .null)
  else
    match v with
    | .null => .ok .null
    | w =>
        let s := pyStr w
        match charMax with
        | some m => if 0 < m then .ok (.vStr (s.take m.toNat)) else .ok (.vStr s)
        | none => .ok (.vStr s)

/-! ### Schema introspection — `get_table_columns` (lines 899-938). -/

/-- The per-row max-length adjustment of `get_table_columns`: positive byte
lengths of types containing `nvarchar` are halved (`char_max //= 2`); the
`varchar`/`char` branch is an explicit no-op; non-positive lengths (and a
halving that lands on zero) are reported as `None` — no limit. -/
def scale_char_max (dataType : Str) (charMax : Int) : Option Int :=
  let adjusted : Int :=
    if 0 < charMax ∧ containsSub (pyLower dataType) (chars ("nvarchar")) = true then
      charMax / 2
    else charMax
  if 0 < adjusted then some adjusted else none

/-- `get_table_columns` applied to the driver's metadata rows
`(name, data_type, max_length_in_bytes)`, in physical column order. -/
def get_table_columns (rows : List (Str × Str × Int)) : List (Str × Str × Option Int) :=
  rows.map fun r => (r.1, r.2.1, scale_char_max r.2.1 r.2.2)

/-! ### The batched upload — `upload_df_to_table` (lines 410-810).

The connection-visible behaviour is modelled as an event trace: the
optional destructive clear (`DELETE FROM`, lines 425-430 — on failure the
source prints a warning and CONTINUES, and the successful delete is NOT
committed by itself), then the batch loop (lines 610-638): slices of
`batch_size = 5000` rows in original order, `executemany` then an
immediate `commit` per batch; the first failing insert propagates out of
the function (lines 639-810 print diagnostics and re-raise; no rollback is
issued, so everything committed stays committed).  Failure of the insert
of batch `k` is modelled by the oracle `insFails k`; failure of the clear
by `clearFails`.  The legacy `'truncate'` mode (lines 431-438) is not
exercised by any claim and is not modelled. -/

/-- Connection-level events of one `upload_df_to_table` call. -/
inductive Ev where
  | del : Ev
  | delFail : Ev
  | ins : Nat → Ev
  | com : Nat → Ev
  | insFail : Nat → Ev
deriving DecidableEq, Repr

/-- Observable outcome of a call: the event trace, the batches whose
commits took effect (in order), and the number of the failing batch if the
call raised. -/
structure Run (ρ : Type) where
  trace : List Ev
  committed : List (List ρ)
  err : Option Nat
deriving DecidableEq, Repr

/-- `batch_size = 5000` (line 614). -/
def batch_size : Nat := 5000

/-- `total_batches = (total_rows + batch_size - 1) // batch_size` (line 621). -/
def total_batches (n : Nat) : Nat := (n + batch_size - 1) / batch_size

/-- The slices `data[i:i+batch_size]` for `i in range(0, total_rows,
batch_size)` (lines 622-623). -/
def batches {ρ : Type} (data : List ρ) : List (List ρ) :=
  (List.range (total_batches data.length)).map fun j =>
    (data.drop (j * batch_size)).take batch_size

/-- The batch loop: insert then immediately commit each batch in order;
the first failing insert ends the call with that batch's number and no
further events. -/
def runBatches {ρ : Type} (insFails : Nat → Bool) : Nat → List (List ρ) → Run ρ
  | _, [] => ⟨[], [], none⟩
  | k, b :: rest =>
      if insFails k then ⟨[Ev.ins k, Ev.insFail k], [], some k⟩
      else
        let r := runBatches insFails (k + 1) rest
        ⟨Ev.ins k :: Ev.com k :: r.trace, b :: r.committed, r.err⟩

/-- Lines 617-638: datasets larger than one batch go through the batch
loop; smaller ones are sent as a single `executemany` followed by one
commit (one batch, number 1). -/
def batchPhase {ρ : Type} (insFails : Nat → Bool) (data : List ρ) : Run ρ :=
  if batch_size < data.length then runBatches insFails 1 (batches data)
  else if insFails 1 then ⟨[Ev.ins 1, Ev.insFail 1], [], some 1⟩
  else ⟨[Ev.ins 1, Ev.com 1], [data], none⟩

/-- The mode handling of lines 424-439: `'delete'` issues `DELETE FROM`
(no separate commit; a failure is caught, a warning printed, and the call
carries on); `'append'` clears nothing. -/
def clearPhase (mode : Str) (clearFails : Bool) : List Ev :=
  if mode = chars ("delete") then (if clearFails then [Ev.delFail] else [Ev.del]) else []

/-- `upload_df_to_table(conn, df, table, upload_mode, table_cols)`:
the clear phase followed by the batch phase over the prepared rows. -/
def upload_df_to_table {ρ : Type} (mode : Str) (clearFails : Bool)
    (insFails : Nat → Bool) (data : List ρ) : Run ρ :=
  let r := batchPhase insFails data
  ⟨clearPhase mode clearFails ++ r.trace, r.committed, r.err⟩

/-! ## Claim theorems -/

/-- C2: the claim says reconciliation returns exactly `len(destColumns)`
columns for EVERY source frame.  The code does not: with destination
columns `["A"]` (say `varchar` with no width) and source columns
`[" A ", "A"]` — two labels that collide after trimming — the trimmed
frame holds two columns labelled `A`, the exact matcher claims the key
once, nothing is dropped, and the final `prepared[expected_cols]` selects
BOTH columns labelled `A`: the function returns a 2-column frame for a
1-column destination (and the duplicated column then breaks the generated
INSERT).  This contradicts the function's own docstring, which promises a
frame aligned to `table_cols` — a code bug, not intended behaviour. -/
theorem C2_reconciled_shape_failing_input :
    (prepare_align [chars (" A "), chars ("A")] [chars ("A")]).result
      = Except.ok [⟨some 0, chars ("A")⟩, ⟨some 1, chars ("A")⟩] ∧
    ([chars ("A")] : List Str).length = 1 := by
  exact ⟨by decide, rfl⟩

/-- C3: the claim says a source column, once claimed, is never reassigned
to a later destination column.  The code's fuzzy matcher searches the
CURRENT columns — including columns already renamed to earlier destination
names — so with destination `["abcdefgh", "abcdefghx"]` and the single
source column `"abcdefghy"`: the first destination fuzzy-claims source
column 0 (ratio 16/17 > 0.85) and renames it `abcdefgh`; the second then
fuzzy-claims the SAME column (ratio of `abcdefghx` vs `abcdefgh` is again
16/17) and renames it away, so source column 0 is claimed twice, and the
final reorder raises `KeyError` on the now-empty label `abcdefgh` —
contradicting the docstring's promise of an aligned frame. -/
theorem C3_double_claim_failing_input :
    (prepare_align [chars ("abcdefghy")] [chars ("abcdefgh"), chars ("abcdefghx")]).claims
      = [(chars ("abcdefgh"), [0]), (chars ("abcdefghx"), [0])] ∧
    (prepare_align [chars ("abcdefghy")] [chars ("abcdefgh"), chars ("abcdefghx")]).result
      = Except.error (chars ("abcdefgh")) := by
  exact ⟨by decide, by decide⟩

/-- C6: the claim says single-value coercion never raises for any value
and any type family.  For the integer family the code runs
`pd.to_numeric(..., errors='coerce').astype('Int64')`, and `astype('Int64')`
RAISES (`TypeError: cannot safely cast non-equivalent float64 to int64`)
whenever a parseable but non-integral numeric value such as `3.7` is
present — the coercion step aborts instead of degrading the value to null. -/
theorem C6_int_coercion_raises :
    coerce_cell (chars ("int")) none (Val.vNum (mkRat 37 10))
        = Except.error (chars ("cannot safely cast non-equivalent float64 to int64")) ∧
    coerce_cell (chars ("int")) none (Val.vStr (chars ("3.7")))
        = Except.error (chars ("cannot safely cast non-equivalent float64 to int64")) := by
  exact ⟨by decide, by decide⟩

/-- C9 counterexample: the claim maps the empty string to false, but
`convert_to_bit` nulls blank strings before the literal-set tests (line
1036), so the empty string coerces to null, not false. -/
theorem C9_empty_string_counterexample :
    convert_to_bit (Val.vStr (chars (""))) = Val.null ∧ Val.null ≠ Val.vBool false := by
  exact ⟨by decide, by decide⟩

/-- C9 as amended: boolean-family coercion maps, case-insensitively (after
trimming), each of 1/true/yes/y/t/on to true and each of
0/false/no/n/f/off to false; blank or absent values, and every other
value, coerce to null — the empty string included (the `''` entry in the
code's false set is dead). -/
theorem C9_bit_mapping :
    (∀ s : Str, pyLower (pyStrip s) ∈ bitTrueLits →
        convert_to_bit (Val.vStr s) = Val.vBool true) ∧
    (∀ s : Str,
        pyLower (pyStrip s) ∈
            [chars ("0"), chars ("false"), chars ("no"), chars ("n"),
             chars ("f"), chars ("off")] →
        convert_to_bit (Val.vStr s) = Val.vBool false) ∧
    (∀ s : Str, pyStrip s = [] → convert_to_bit (Val.vStr s) = Val.null) ∧
    convert_to_bit Val.null = Val.null ∧
    (convert_to_bit (Val.vInt 1) = Val.vBool true ∧
      convert_to_bit (Val.vInt 0) = Val.vBool false ∧
      ∀ b : Bool, convert_to_bit (Val.vBool b) = Val.vBool b) ∧
    (∀ n : Int, n ≠ 1 → n ≠ 0 → convert_to_bit (Val.vInt n) = Val.null) ∧
    (∀ s : Str, pyLower (pyStrip s) ∉ bitTrueLits →
        pyLower (pyStrip s) ∉ bitFalseLits → convert_to_bit (Val.vStr s) = Val.null) := by
  refine ⟨?_, ?_, ?_, rfl, ⟨rfl, rfl, fun b => rfl⟩, ?_, ?_⟩
  · intro s h
    have hne : ¬ pyStrip s = [] := by
      intro hEq
      rw [hEq] at h
      exact absurd h (by decide)
    simp only [convert_to_bit, if_neg hne, if_pos h]
  · intro s h
    have hmem : pyLower (pyStrip s) ∈ bitFalseLits := by
      simp only [bitFalseLits]
      simp only [List.mem_cons, List.mem_singleton] at h ⊢
      tauto
    have hne : ¬ pyStrip s = [] := by
      intro hEq
      rw [hEq] at h
      exact absurd h (by decide)
    have hnt : pyLower (pyStrip s) ∉ bitTrueLits := by
      simp only [List.mem_cons, List.not_mem_nil, or_false] at h
      rcases h with h | h | h | h | h | h <;> rw [h] <;> decide
    simp only [convert_to_bit, if_neg hne, if_neg hnt, if_pos hmem]
  · intro s h
    simp only [convert_to_bit, if_pos h]
  · intro n h1 h0
    simp only [convert_to_bit, if_neg h1, if_neg h0]
  · intro s h1 h2
    by_cases hb : pyStrip s = []
    · simp only [convert_to_bit, if_pos hb]
    · simp only [convert_to_bit, if_neg hb, if_neg h1, if_neg h2]

/-- C9 witness: concrete instances of the amended mapping. -/
theorem C9_bit_mapping_witness :
    convert_to_bit (Val.vStr (chars ("TRUE"))) = Val.vBool true ∧
    convert_to_bit (Val.vStr (chars (" Off "))) = Val.vBool false ∧
    convert_to_bit (Val.vStr (chars ("maybe"))) = Val.null :=
  ⟨C9_bit_mapping.1 (chars ("TRUE")) (by decide),
   C9_bit_mapping.2.1 (chars (" Off ")) (by decide),
   C9_bit_mapping.2.2.2.2.2.2 (chars ("maybe")) (by decide) (by decide)⟩

/-- C10 counterexample: the claim says every double-byte type's byte length
is halved, naming `nchar` as such a type; the code halves only when the
type name contains `nvarchar`, so an `nchar` column whose driver length is
20 bytes (10 characters) is reported as 20, not the claimed 10. -/
theorem C10_nchar_counterexample :
    get_table_columns [(chars ("c"), chars ("nchar"), 20)]
        = [(chars ("c"), chars ("nchar"), some 20)] ∧
    (some 20 : Option Int) ≠ some 10 := by
  exact ⟨by decide, by decide⟩

/-- C10 as amended: only types whose name contains `nvarchar` have their
positive driver byte length halved; every other type (including the
double-byte `nchar`/`ntext`) keeps the driver length unchanged; and
non-positive driver lengths are reported as no limit. -/
theorem C10_char_units :
    (∀ (t : Str) (m : Int), containsSub (pyLower t) (chars ("nvarchar")) = true →
        2 ≤ m → scale_char_max t m = some (m / 2)) ∧
    (∀ (t : Str) (m : Int), containsSub (pyLower t) (chars ("nvarchar")) = false →
        0 < m → scale_char_max t m = some m) ∧
    (∀ (t : Str) (m : Int), m ≤ 0 → scale_char_max t m = none) := by
  refine ⟨?_, ?_, ?_⟩
  · intro t m hsub hm
    have h0 : (0 : Int) < m := by omega
    have h2 : (0 : Int) < m / 2 := by omega
    simp only [scale_char_max, if_pos (And.intro h0 hsub), if_pos h2]
  · intro t m hsub hm
    have hnot : ¬ ((0 : Int) < m ∧ containsSub (pyLower t) (chars ("nvarchar")) = true) := by
      intro hc
      rw [hsub] at hc
      exact Bool.false_ne_true hc.2
    simp only [scale_char_max, if_neg hnot, if_pos hm]
  · intro t m hm
    have hnot : ¬ ((0 : Int) < m ∧ containsSub (pyLower t) (chars ("nvarchar")) = true) := by
      intro hc
      omega
    simp only [scale_char_max, if_neg hnot, if_neg (by omega : ¬ (0 : Int) < m)]

/-- C10 witness: an `nvarchar` length is halved, an `nchar` length is not,
and `-1` (the driver's encoding of `max`) means no limit. -/
theorem C10_char_units_witness :
    scale_char_max (chars ("nvarchar")) 100 = some (100 / 2) ∧
    scale_char_max (chars ("nchar")) 20 = some 20 ∧
    scale_char_max (chars ("nvarchar")) (-1) = none :=
  ⟨C10_char_units.1 (chars ("nvarchar")) 100 (by decide) (by decide),
   C10_char_units.2.1 (chars ("nchar")) 20 (by decide) (by decide),
   C10_char_units.2.2 (chars ("nvarchar")) (-1) (by decide)⟩

/-- C5 counterexample: with `upload_mode='delete'`, a failing `DELETE`
leaves only a warning and the upload still inserts and commits every data
batch (`err = none`); and even when the delete succeeds, no commit event
separates it from the first batch's insert — the delete is only committed
together with batch 1. -/
theorem C5_clear_failure_not_fatal :
    upload_df_to_table (chars ("delete")) true (fun _ => false) [0]
        = ⟨[Ev.delFail, Ev.ins 1, Ev.com 1], [[0]], none⟩ ∧
    upload_df_to_table (chars ("delete")) false (fun _ => false) [0]
        = ⟨[Ev.del, Ev.ins 1, Ev.com 1], [[0]], none⟩ := by
  exact ⟨by decide, by decide⟩

/-- C5 as amended: in delete mode `upload_df_to_table` issues the `DELETE`
before any batch but never commits it separately, and a failed delete is
caught and warned about, after which the call proceeds exactly as an
append-mode upload — every data batch is still attempted. -/
theorem C5_delete_mode_behavior {ρ : Type} (insFails : Nat → Bool) (data : List ρ) :
    upload_df_to_table (chars ("delete")) false insFails data =
      ⟨Ev.del :: (upload_df_to_table (chars ("append")) false insFails data).trace,
       (upload_df_to_table (chars ("append")) false insFails data).committed,
       (upload_df_to_table (chars ("append")) false insFails data).err⟩ ∧
    upload_df_to_table (chars ("delete")) true insFails data =
      ⟨Ev.delFail :: (upload_df_to_table (chars ("append")) false insFails data).trace,
       (upload_df_to_table (chars ("append")) false insFails data).committed,
       (upload_df_to_table (chars ("append")) false insFails data).err⟩ := by
  have hd : clearPhase (chars ("delete")) false = [Ev.del] := by decide
  have hdf : clearPhase (chars ("delete")) true = [Ev.delFail] := by decide
  have ha : clearPhase (chars ("append")) false = [] := by decide
  constructor <;>
    simp only [upload_df_to_table, hd, hdf, ha, List.nil_append, List.cons_append,
      List.singleton_append]

/-- The denominator of a similarity fraction is positive. -/
lemma ratioPair_den_pos (a b : Str) : 0 < (ratioPair a b).2 := by
  unfold ratioPair
  split
  · norm_num
  · rename_i h
    simp only []
    omega

/-- Transitivity of the cross-multiplied fraction order: from
`a/b < c/d` and `c/d < e/f` conclude `a/b < e/f` (denominators positive
where needed). -/
lemma fracTrans (a b c d e f : Nat) (_hd : 0 < d) (hb : 0 < b)
    (h1 : a * d < c * b) (h2 : c * f < e * d) : a * f < e * b := by
  rcases Nat.eq_zero_or_pos f with rfl | hf
  · simp only [Nat.mul_zero] at h2 ⊢
    rcases Nat.eq_zero_or_pos e with rfl | he
    · simp at h2
    · exact Nat.mul_pos he hb
  · have key : a * f * d < e * b * d := by
      calc a * f * d = a * d * f := by ring
        _ < c * b * f := by
              exact Nat.mul_lt_mul_of_lt_of_le h1 (le_refl f) hf
        _ = c * f * b := by ring
        _ ≤ e * d * b := Nat.mul_le_mul_right b (le_of_lt h2)
        _ = e * b * d := by ring
    exact Nat.lt_of_mul_lt_mul_right key

/-- Soundness of the fuzzy-match loop: a returned candidate either was the
incoming best or lies in the scanned list with a ratio strictly above the
incoming best ratio. -/
lemma fuzzyBest_spec (expected : Str) :
    ∀ (l : List Str) (bn bd : Nat) (cur : Option Str) (m : Str), 0 < bd →
      fuzzyBest expected l bn bd cur = some m →
      cur = some m ∨
        (m ∈ l ∧
          bn * (ratioPair (pyLower expected) (pyLower m)).2 <
            (ratioPair (pyLower expected) (pyLower m)).1 * bd) := by
  intro l
  induction l with
  | nil =>
      intro bn bd cur m _ h
      exact Or.inl h
  | cons a rest ih =>
      intro bn bd cur m hbd h
      simp only [fuzzyBest] at h
      by_cases hlt : bn * (ratioPair (pyLower expected) (pyLower a)).2 <
          (ratioPair (pyLower expected) (pyLower a)).1 * bd
      · rw [if_pos hlt] at h
        rcases ih _ _ _ m (ratioPair_den_pos _ _) h with h1 | ⟨hm, hr⟩
        · obtain rfl : a = m := by injection h1
          exact Or.inr ⟨List.mem_cons_self _ _, hlt⟩
        · exact Or.inr ⟨List.mem_cons_of_mem _ hm,
            fracTrans _ _ _ _ _ _ (ratioPair_den_pos _ _) hbd hlt hr⟩
      · rw [if_neg hlt] at h
        rcases ih _ _ _ m hbd h with h1 | ⟨hm, hr⟩
        · exact Or.inl h1
        · exact Or.inr ⟨List.mem_cons_of_mem _ hm, hr⟩

/-- C4 counterexample: the claim says a pair scoring exactly 0.85 is
claimed.  The source names `"abcdefghijklmnopqxyz"` and
`"abcdefghijklmnopq123"` share exactly 17 of 40 characters, so their
similarity is `34/40 = 0.85` exactly — and neither `fuzzy_match` of
`upload_refresh.py` nor `fuzzy_match_column` of
`validate_and_clean_data.py` claims the pair, because both loops start
`best_ratio` AT the threshold and update only on a strictly greater
ratio. -/
theorem C4_exact_boundary_not_claimed :
    ratioPair (chars ("abcdefghijklmnopqxyz")) (chars ("abcdefghijklmnopq123")) = (34, 40) ∧
    similarityScore (chars ("abcdefghijklmnopqxyz")) (chars ("abcdefghijklmnopq123"))
        = 17 / 20 ∧
    fuzzy_match (chars ("abcdefghijklmnopqxyz")) [chars ("abcdefghijklmnopq123")] = none ∧
    (fuzzy_match_column (chars ("abcdefghijklmnopqxyz"))
        [chars ("abcdefghijklmnopq123")]).1 = none := by
  have h : ratioPair (chars ("abcdefghijklmnopqxyz")) (chars ("abcdefghijklmnopq123"))
      = (34, 40) := by decide
  refine ⟨h, ?_, by decide, by decide⟩
  rw [similarityScore, h]
  norm_num

/-- C4 as amended: the fuzzy threshold is exclusive — whenever
`fuzzy_match` claims a candidate, that candidate comes from the available
list and its similarity to the destination name is STRICTLY greater than
0.85 (so a pair at exactly 0.85, like one at 0.849, is never claimed). -/
theorem C4_threshold_exclusive (expected : Str) (avail : List Str) (m : Str)
    (h : fuzzy_match expected avail = some m) :
    m ∈ avail ∧ (17 : ℚ) / 20 < similarityScore (pyLower expected) (pyLower m) := by
  rcases fuzzyBest_spec expected avail 17 20 none m (by norm_num) h with h1 | ⟨hm, hlt⟩
  · exact absurd h1 (by simp)
  · refine ⟨hm, ?_⟩
    rw [similarityScore, div_lt_div_iff₀ (by norm_num)
      (by exact_mod_cast ratioPair_den_pos (pyLower expected) (pyLower m))]
    exact_mod_cast hlt

/-- C4 witness: `"abcdefgh"` vs `"abcdefghy"` is claimed (ratio `16/17`),
and the theorem yields membership and a score strictly above 0.85. -/
theorem C4_threshold_exclusive_witness :
    chars ("abcdefghy") ∈ [chars ("abcdefghy")] ∧
      (17 : ℚ) / 20 <
        similarityScore (pyLower (chars ("abcdefgh"))) (pyLower (chars ("abcdefghy"))) :=
  C4_threshold_exclusive (chars ("abcdefgh")) [chars ("abcdefghy")]
    (chars ("abcdefghy")) (by decide)

/-- C7 counterexample: a 60-character value in a `varchar(50)` column is
truncated to exactly 50 characters, but nothing the code surfaces records
it: the reconciliation diagnostics (missing columns, extra columns, fuzzy
notes — the only diagnostics the source computes) are all empty for this
input, the truncation lambda of `prepare_dataframe_for_table` prints
nothing, and `upload_df_to_table` returns `None`; no truncation counter
exists anywhere, refuting the claim's "increments the truncation counter
... surfaced in the diagnostics returned to the caller". -/
theorem C7_truncation_not_surfaced :
    coerce_cell (chars ("varchar")) (some 50) (Val.vStr (List.replicate 60 'x'))
        = Except.ok (Val.vStr (List.replicate 50 'x')) ∧
    (List.replicate 50 'x').length = 50 ∧
    (List.replicate 60 'x').length = 60 ∧
    (prepare_align [chars ("A")] [chars ("A")]).missing = [] ∧
    (prepare_align [chars ("A")] [chars ("A")]).extra = [] ∧
    (prepare_align [chars ("A")] [chars ("A")]).notes = [] := by
  exact ⟨by decide, by decide, by decide, by decide, by decide, by decide⟩

/-- C7 as amended: for a string-family column with a positive configured
width, every (non-null) string value is cut to the first `maxCharLength`
characters without raising — the result's length is the minimum of the
width and the original length, so over-long values come out at exactly
`maxCharLength` — but no count of these truncations is kept or returned. -/
theorem C7_truncation_exact (s : Str) (m : Int) (h : 0 < m) :
    coerce_cell (chars ("varchar")) (some m) (Val.vStr s)
        = Except.ok (Val.vStr (s.take m.toNat)) ∧
    (s.take m.toNat).length = min m.toNat s.length := by
  constructor
  · have hc : sql_type_to_coercion (chars ("varchar")) = chars ("str"):= by decide
    simp only [coerce_cell, hc]
    rw [if_neg (by decide), if_neg (by decide), if_neg (by decide), if_neg (by decide)]
    simp only [pyStr]
    rw [if_pos h]
  · exact List.length_take _ _

/-- C7 witness: the amended statement at a concrete 60-character value and
width 50. -/
theorem C7_truncation_exact_witness :
    coerce_cell (chars ("varchar")) (some 50) (Val.vStr (List.replicate 60 'y'))
        = Except.ok (Val.vStr ((List.replicate 60 'y').take (50 : Int).toNat)) ∧
    ((List.replicate 60 'y').take (50 : Int).toNat).length
        = min (50 : Int).toNat (List.replicate 60 'y').length :=
  C7_truncation_exact (List.replicate 60 'y') 50 (by norm_num)

/-- A well-formed calendar datetime strictly after 9999-12-31 23:59:59. -/
def dtAfterMax (r : DTRaw) : Prop :=
  9999 < r.year ∨ (r.year = 9999 ∧
    (12 < r.month ∨ (r.month = 12 ∧
      (31 < r.day ∨ (r.day = 31 ∧
        (23 < r.hour ∨ (r.hour = 23 ∧
          (59 < r.minute ∨ (r.minute = 59 ∧ 59 < r.second)))))))))

instance (r : DTRaw) : Decidable (dtAfterMax r) := by
  unfold dtAfterMax; infer_instance

/-- A valid calendar datetime after the upper bound constant must lie in
year 10000 or later: within year 9999 no valid field combination exceeds
`9999-12-31 23:59:59` at whole-second resolution. -/
lemma year_ge_of_after (r : DTRaw) (hv : validCivil r) (ha : dtAfterMax r) :
    10000 ≤ r.year := by
  obtain ⟨h1, h2, h3, h4, h5, h6, h7, h8⟩ := hv
  rcases ha with h | ⟨hy, h⟩
  · omega
  · rcases h with h | ⟨hm, h⟩
    · omega
    · rw [hy, hm] at h5
      norm_num [daysInMonth, isLeap] at h5
      rcases h with h | ⟨_, h⟩
      · omega
      · rcases h with h | ⟨_, h⟩
        · omega
        · rcases h with h | ⟨_, h⟩ <;> omega

/-- Any date in year 10000 or later lies at least 2786860 days past the
1970 epoch (era at least 24, day-of-era nonnegative). -/
lemma civilDays_lower (y m d : Nat) (hy : 10000 ≤ y) :
    (2786860 : Int) ≤ civilDays y m d := by
  have hA : 9999 ≤ civilYAdj y m := by
    unfold civilYAdj
    split <;> omega
  have h24 : 24 ≤ civilEra y m := by
    unfold civilEra
    omega
  have hmul : (3506328 : Nat) ≤ civilEra y m * 146097 :=
    le_trans (by norm_num) (Nat.mul_le_mul_right 146097 h24)
  have hbig : (3506328 : Nat) ≤ civilEra y m * 146097 + civilDoe y m d :=
    le_trans hmul (Nat.le_add_right _ _)
  unfold civilDays
  omega

/-- Any raw value in year 10000 or later is beyond the nanosecond range of
pandas timestamps, so `to_datetime` coerces it to `NaT`. -/
lemma parse_none_of_year_ge (r : DTRaw) (hy : 10000 ≤ r.year) :
    to_datetime_one r = none := by
  unfold to_datetime_one
  rw [if_neg]
  rintro ⟨-, -, hle⟩
  have h1 : (2786860 : Int) ≤ civilDays r.year r.month r.day :=
    civilDays_lower _ _ _ hy
  have hsec : (0 : Int) ≤ ((r.hour * 3600 + r.minute * 60 + r.second : Nat) : Int) := by
    positivity
  have h2 : (2786860 : Int) * 86400 ≤
      civilDays r.year r.month r.day * 86400 +
        ((r.hour * 3600 + r.minute * 60 + r.second : Nat) : Int) := by
    have := mul_le_mul_of_nonneg_right h1 (by norm_num : (0 : Int) ≤ 86400)
    omega
  have h3 : (2786860 : Int) * 86400 * 1000000000 ≤ toNs r := by
    unfold toNs
    exact le_trans (le_of_eq rfl) (mul_le_mul_of_nonneg_right h2 (by norm_num))
  rw [pandasTsMax] at hle
  norm_num at h3
  omega

/-- C8: the datetime lower bound is inclusive at 1753-01-01 00:00:00 —
that instant survives the range mask unchanged; one second earlier
(1752-12-31 23:59:59) is masked to null; and every well-formed timestamp
after 9999-12-31 23:59:59 coerces to null (such values already exceed the
nanosecond range of `pd.to_datetime`, which coerces them to `NaT`). -/
theorem C8_datetime_bounds :
    coerce_datetime_cell ⟨1753, 1, 1, 0, 0, 0⟩ = some (toNs ⟨1753, 1, 1, 0, 0, 0⟩) ∧
    coerce_datetime_cell ⟨1752, 12, 31, 23, 59, 59⟩ = none ∧
    ∀ r : DTRaw, validCivil r → dtAfterMax r → coerce_datetime_cell r = none := by
  refine ⟨by decide, by decide, ?_⟩
  intro r hv ha
  unfold coerce_datetime_cell
  rw [parse_none_of_year_ge r (year_ge_of_after r hv ha)]

/-- C8 witness: the universal part applied at 10000-01-01 00:00:00. -/
theorem C8_datetime_bounds_witness :
    coerce_datetime_cell ⟨10000, 1, 1, 0, 0, 0⟩ = none :=
  C8_datetime_bounds.2.2 ⟨10000, 1, 1, 0, 0, 0⟩ (by decide) (by decide)

/-- Shape of a failing batch-loop run started at batch number `s`: the
failing batch is some `k ≥ s`, exactly the batches before it are committed
(each right after its own insert), and the trace ends at the failed insert
— nothing afterwards. -/
lemma runBatches_err_spec {ρ : Type} (insFails : Nat → Bool) :
    ∀ (bs : List (List ρ)) (s k : Nat),
      (runBatches insFails s bs).err = some k →
      s ≤ k ∧
      (runBatches insFails s bs).committed = bs.take (k - s) ∧
      (runBatches insFails s bs).trace =
        ((List.range' s (k - s)).flatMap fun i => [Ev.ins i, Ev.com i]) ++
          [Ev.ins k, Ev.insFail k] := by
  intro bs
  induction bs with
  | nil =>
      intro s k h
      exact absurd h (by simp [runBatches])
  | cons b rest ih =>
      intro s k h
      by_cases hf : insFails s = true
      · have hrw : runBatches insFails s (b :: rest)
            = ⟨[Ev.ins s, Ev.insFail s], [], some s⟩ := by
          simp only [runBatches]
          rw [if_pos hf]
        rw [hrw] at h
        obtain rfl : s = k := Option.some.inj h
        rw [hrw]
        refine ⟨le_refl s, by simp, by simp⟩
      · have hrw : runBatches insFails s (b :: rest)
            = ⟨Ev.ins s :: Ev.com s :: (runBatches insFails (s + 1) rest).trace,
               b :: (runBatches insFails (s + 1) rest).committed,
               (runBatches insFails (s + 1) rest).err⟩ := by
          simp only [runBatches]
          rw [if_neg hf]
        rw [hrw] at h
        obtain ⟨hsk, hcom, htr⟩ := ih (s + 1) k h
        rw [hrw]
        have hk : k - s = (k - (s + 1)) + 1 := by omega
        refine ⟨by omega, ?_, ?_⟩
        · show b :: (runBatches insFails (s + 1) rest).committed = (b :: rest).take (k - s)
          rw [hk, List.take_succ_cons, hcom]
        · show Ev.ins s :: Ev.com s :: (runBatches insFails (s + 1) rest).trace =
            ((List.range' s (k - s)).flatMap fun i => [Ev.ins i, Ev.com i]) ++
              [Ev.ins k, Ev.insFail k]
          rw [htr, hk, List.range'_succ, List.flatMap_cons]
          simp

/-- Every slice `data[i:i+batch_size]` has at most `batch_size` rows. -/
lemma batches_sizes {ρ : Type} (data : List ρ) :
    ∀ b ∈ batches data, b.length ≤ batch_size := by
  intro b hb
  unfold batches at hb
  obtain ⟨j, -, rfl⟩ := List.mem_map.1 hb
  calc ((data.drop (j * batch_size)).take batch_size).length
      = min batch_size (data.drop (j * batch_size)).length := List.length_take _ _
    _ ≤ batch_size := min_le_left _ _

/-- Peeling one slice off the front when the data exceeds one batch. -/
lemma batches_cons {ρ : Type} (data : List ρ) (h : batch_size < data.length) :
    batches data = data.take batch_size :: batches (data.drop batch_size) := by
  unfold batches total_batches
  rw [List.length_drop]
  have h1 : (data.length + batch_size - 1) / batch_size =
      ((data.length - batch_size) + batch_size - 1) / batch_size + 1 := by
    unfold batch_size at *
    omega
  rw [h1, List.range_succ_eq_map]
  rw [List.map_cons, Nat.zero_mul, List.drop_zero, List.map_map]
  refine congrArg₂ List.cons rfl ?_
  refine List.map_congr_left ?_
  intro j hj
  simp only [Function.comp_apply]
  rw [List.drop_drop]
  have harg : Nat.succ j * batch_size = batch_size + j * batch_size := by
    rw [Nat.succ_mul]
    omega
  rw [harg]

/-- There are no slices of an empty row list. -/
lemma batches_nil {ρ : Type} : batches ([] : List ρ) = [] := by
  unfold batches total_batches batch_size
  norm_num

/-- The slices reassemble the data in original row order. -/
lemma batches_flatten {ρ : Type} :
    ∀ (n : Nat) (data : List ρ), data.length ≤ n → (batches data).flatten = data := by
  intro n
  induction n with
  | zero =>
      intro data h
      have hd : data = [] := List.eq_nil_of_length_eq_zero (by omega)
      subst hd
      rw [batches_nil]
      rfl
  | succ n ih =>
      intro data h
      by_cases hlen : data.length ≤ batch_size
      · rcases Nat.eq_zero_or_pos data.length with h0 | hpos
        · have hd : data = [] := List.eq_nil_of_length_eq_zero h0
          subst hd
          rw [batches_nil]
          rfl
        · have h1 : total_batches data.length = 1 := by
            unfold total_batches batch_size at *
            omega
          unfold batches
          rw [h1]
          rw [show List.range 1 = [0] from by decide]
          simp only [List.map_cons, List.map_nil, Nat.zero_mul,
            List.drop_zero, List.flatten_cons, List.flatten_nil, List.append_nil]
          exact List.take_of_length_le hlen
      · push_neg at hlen
        rw [batches_cons data hlen, List.flatten_cons,
          ih (data.drop batch_size) (by rw [List.length_drop]; unfold batch_size at *; omega)]
        exact List.take_append_drop _ _

/-- C1: if the network insert of batch `k` fails, every earlier batch was
already committed (each immediately after its own insert, as the event
trace shows), batch `k`'s failed insert is the last event — no batch at or
past `k` is attempted afterwards and nothing is rolled back — and the
batches are the in-order slices of the prepared rows, each of at most
`batch_size = 5000` rows. -/
theorem C1_batch_failure_semantics {ρ : Type} (mode : Str) (clearFails : Bool)
    (insFails : Nat → Bool) (data : List ρ) (k : Nat)
    (h : (upload_df_to_table mode clearFails insFails data).err = some k) :
    (upload_df_to_table mode clearFails insFails data).committed
        = (batches data).take (k - 1) ∧
    (upload_df_to_table mode clearFails insFails data).trace =
      clearPhase mode clearFails ++
        (((List.range' 1 (k - 1)).flatMap fun i => [Ev.ins i, Ev.com i]) ++
          [Ev.ins k, Ev.insFail k]) ∧
    (∀ b ∈ batches data, b.length ≤ batch_size) ∧
    (batches data).flatten = data := by
  have hsz := batches_sizes data
  have hfl := batches_flatten data.length data (le_refl _)
  by_cases hbig : batch_size < data.length
  · have hup : upload_df_to_table mode clearFails insFails data =
        ⟨clearPhase mode clearFails ++ (runBatches insFails 1 (batches data)).trace,
         (runBatches insFails 1 (batches data)).committed,
         (runBatches insFails 1 (batches data)).err⟩ := by
      simp only [upload_df_to_table, batchPhase]
      rw [if_pos hbig]
    rw [hup] at h
    obtain ⟨h1k, hcom, htr⟩ := runBatches_err_spec insFails (batches data) 1 k h
    rw [hup]
    exact ⟨hcom, by rw [show (⟨clearPhase mode clearFails ++
      (runBatches insFails 1 (batches data)).trace,
      (runBatches insFails 1 (batches data)).committed,
      (runBatches insFails 1 (batches data)).err⟩ : Run ρ).trace =
        clearPhase mode clearFails ++ (runBatches insFails 1 (batches data)).trace from rfl,
      htr], hsz, hfl⟩
  · by_cases hf : insFails 1 = true
    · have hup : upload_df_to_table mode clearFails insFails data =
          ⟨clearPhase mode clearFails ++ [Ev.ins 1, Ev.insFail 1], [], some 1⟩ := by
        simp only [upload_df_to_table, batchPhase]
        rw [if_neg hbig, if_pos hf]
      rw [hup] at h
      obtain rfl : (1 : Nat) = k := Option.some.inj h
      rw [hup]
      exact ⟨by simp, by simp, hsz, hfl⟩
    · have hup : upload_df_to_table mode clearFails insFails data =
          ⟨clearPhase mode clearFails ++ [Ev.ins 1, Ev.com 1], [data], none⟩ := by
        simp only [upload_df_to_table, batchPhase]
        rw [if_neg hbig, if_neg hf]
      rw [hup] at h
      exact absurd h (by simp)

/-- C1 witness: 10002 rows split into batches of 5000, 5000 and 2; the
insert of batch 2 fails; batch 1 alone is committed and the trace is
insert 1, commit 1, insert 2, failure — batch 3 never appears. -/
theorem C1_batch_failure_semantics_witness :
    (upload_df_to_table (chars ("append")) false (fun k => k == 2)
        (List.replicate 10002 (0 : Nat))).committed
      = (batches (List.replicate 10002 (0 : Nat))).take (2 - 1) ∧
    (upload_df_to_table (chars ("append")) false (fun k => k == 2)
        (List.replicate 10002 (0 : Nat))).trace =
      clearPhase (chars ("append")) false ++
        (((List.range' 1 (2 - 1)).flatMap fun i => [Ev.ins i, Ev.com i]) ++
          [Ev.ins 2, Ev.insFail 2]) := by
  have hb : batches (List.replicate 10002 (0 : Nat)) =
      [List.replicate 5000 (0 : Nat), List.replicate 5000 (0 : Nat),
       List.replicate 2 (0 : Nat)] := by
    unfold batches total_batches batch_size
    rw [List.length_replicate]
    rw [show (10002 + 5000 - 1) / 5000 = 3 from by norm_num]
    rw [show List.range 3 = [0, 1, 2] from by decide]
    rw [List.map_cons, List.map_cons, List.map_cons, List.map_nil]
    norm_num
  have herr : (upload_df_to_table (chars ("append")) false (fun k => k == 2)
      (List.replicate 10002 (0 : Nat))).err = some 2 := by
    have hup : upload_df_to_table (chars ("append")) false (fun k => k == 2)
        (List.replicate 10002 (0 : Nat)) =
        ⟨clearPhase (chars ("append")) false ++
            (runBatches (fun k => k == 2) 1
              (batches (List.replicate 10002 (0 : Nat)))).trace,
         (runBatches (fun k => k == 2) 1
            (batches (List.replicate 10002 (0 : Nat)))).committed,
         (runBatches (fun k => k == 2) 1
            (batches (List.replicate 10002 (0 : Nat)))).err⟩ := by
      simp only [upload_df_to_table, batchPhase]
      rw [if_pos (by rw [List.length_replicate]; unfold batch_size; omega)]
    rw [hup, hb]
    decide
  have hm := C1_batch_failure_semantics (chars ("append")) false (fun k => k == 2)
    (List.replicate 10002 (0 : Nat)) 2 herr
  exact ⟨hm.1, hm.2.1⟩

end DataUploader
